import Mathlib

/-!
Verification of the meeting registration and reminder scheduling engine.

The definitions below are a shallow embedding of the data access layer
(`bot/storage.py`), the ORM data model (`bot/models.py`) and the reminder
planner (`bot/scheduler.py`).  Database tables become lists of records,
UTC instants become integers (seconds), SQLAlchemy's `scalar_one_or_none`
becomes an `Except`-valued selector that errors on multiple rows, and a
transaction that raises is modelled as returning `Except.error` with no
successor state (the session is rolled back, nothing is committed).
-/

namespace GtBot

/-- Status constants of `RegistrationStatus` in `bot/models.py`. -/
inductive RegStatus where
  | confirmed
  | waitlisted
  | canceled
deriving DecidableEq, Repr

/-- Row of the `meetings` table (`bot/models.py`, class `Meeting`).
`startAtUtc` and `canceledAt` are UTC instants in seconds. -/
structure Meeting where
  id : Nat
  topic : String
  description : String
  startAtUtc : Int
  maxParticipants : Nat
  location : Option String
  createdBy : Nat
  canceledAt : Option Int
deriving DecidableEq, Repr

/-- Row of the `registrations` table (`bot/models.py`, class `Registration`).
`isHost` defaults to `false` and is never set by any storage operation. -/
structure Registration where
  id : Nat
  meetingId : Nat
  userId : Nat
  status : RegStatus
  isHost : Bool
deriving DecidableEq, Repr

/-- The database state: the two tables the claims are about, plus the
autoincrement counters for the primary keys. -/
structure DB where
  meetings : List Meeting
  registrations : List Registration
  nextMeetingId : Nat
  nextRegId : Nat
deriving DecidableEq, Repr

/-- The freshly created (empty) database. -/
def emptyDB : DB := ⟨[], [], 0, 0⟩

/-- SQLAlchemy's `Result.scalar_one_or_none`: `none` on zero rows, the row on
exactly one, and an exception (modelled as `Except.error`) on two or more. -/
def scalar_one_or_none {α : Type} (l : List α) : Except String (Option α) :=
  match l with
  | [] => Except.ok none
  | [a] => Except.ok (some a)
  | _ => Except.error "Multiple rows were found when exactly one or none was required"

/-- `Database.get_meeting` / `session.get(Meeting, meeting_id)`: lookup by
primary key. -/
def get_meeting (db : DB) (meetingId : Nat) : Option Meeting :=
  db.meetings.find? (fun m => decide (m.id = meetingId))

/-- The rows selected by `Database.count_confirmed`'s query: registrations of
the meeting with status `confirmed`. -/
def confirmedRegsFor (db : DB) (meetingId : Nat) : List Registration :=
  db.registrations.filter
    (fun r => decide (r.meetingId = meetingId ∧ r.status = RegStatus.confirmed))

/-- `Database.count_confirmed` (`bot/storage.py` lines 94-103). -/
def count_confirmed (db : DB) (meetingId : Nat) : Nat :=
  (confirmedRegsFor db meetingId).length

/-- The rows selected by the duplicate check inside `Database.register`
(lines 129-134): registrations of the (meeting, user) pair whose status is
`confirmed` — waitlisted rows are NOT matched by this query. -/
def confirmedPair (db : DB) (meetingId userId : Nat) : List Registration :=
  db.registrations.filter
    (fun r => decide (r.meetingId = meetingId ∧ r.userId = userId ∧
                      r.status = RegStatus.confirmed))

/-- The rows selected by `Database.unregister`'s query (lines 159-164):
registrations of the pair whose status is in {confirmed, waitlisted}. -/
def livePair (db : DB) (meetingId userId : Nat) : List Registration :=
  db.registrations.filter
    (fun r => decide (r.meetingId = meetingId ∧ r.userId = userId ∧
                      (r.status = RegStatus.confirmed ∨ r.status = RegStatus.waitlisted)))

/-- `Database.create_meeting` (lines 49-68): inserts the meeting and, in the
same transaction, a confirmed registration for the host.  The registration is
constructed without `is_host`, so the flag keeps its default `false`. -/
def create_meeting (db : DB) (hostId : Nat) (topic description : String)
    (startAtUtc : Int) (maxParticipants : Nat) (location : Option String) :
    DB × Meeting :=
  let m : Meeting :=
    ⟨db.nextMeetingId, topic, description, startAtUtc, maxParticipants, location, hostId, none⟩
  let reg : Registration := ⟨db.nextRegId, m.id, hostId, RegStatus.confirmed, false⟩
  ({ db with
      meetings := db.meetings ++ [m],
      registrations := db.registrations ++ [reg],
      nextMeetingId := db.nextMeetingId + 1,
      nextRegId := db.nextRegId + 1 }, m)

/-- `Database.register` (lines 119-150).  Returns the committed state together
with the `(bool, message)` pair of the source, or `Except.error` when the
duplicate-check query finds several confirmed rows. -/
def register (db : DB) (meetingId userId : Nat) :
    Except String (DB × Bool × String) :=
  match get_meeting db meetingId with
  | none => Except.ok (db, false, "Meeting not found or canceled.")
  | some m =>
    if m.canceledAt.isSome then Except.ok (db, false, "Meeting not found or canceled.")
    else
      match scalar_one_or_none (confirmedPair db meetingId userId) with
      | Except.error e => Except.error e
      | Except.ok (some _) => Except.ok (db, false, "You are already registered.")
      | Except.ok none =>
        let count := count_confirmed db meetingId
        let st := if count < m.maxParticipants then RegStatus.confirmed
                  else RegStatus.waitlisted
        let reg : Registration := ⟨db.nextRegId, meetingId, userId, st, false⟩
        let db' : DB := { db with
            registrations := db.registrations ++ [reg],
            nextRegId := db.nextRegId + 1 }
        if st = RegStatus.waitlisted then
          Except.ok (db', true, "Meeting is full. You are added to the waitlist.")
        else
          Except.ok (db', true, "Registered successfully.")

/-- The in-place mutation `reg.status = RegistrationStatus.CANCELED` applied to
the row with the given primary key. -/
def cancelById (regs : List Registration) (rid : Nat) : List Registration :=
  regs.map (fun r => if r.id = rid then { r with status := RegStatus.canceled } else r)

/-- `Database.unregister` (lines 152-170).  `scalar_one_or_none` over the live
rows of the pair; flips the found row to canceled; errors on multiple rows. -/
def unregister (db : DB) (meetingId userId : Nat) :
    Except String (DB × Bool × String) :=
  match scalar_one_or_none (livePair db meetingId userId) with
  | Except.error e => Except.error e
  | Except.ok none => Except.ok (db, false, "You are not registered.")
  | Except.ok (some reg) =>
    Except.ok ({ db with registrations := cancelById db.registrations reg.id },
               true, "You have been unregistered.")

/-- Ordering relation used by the `ORDER BY start_at_utc ASC` clauses. -/
def startLE (a b : Meeting) : Prop := a.startAtUtc ≤ b.startAtUtc

instance : DecidableRel startLE := fun a b => Int.decLe a.startAtUtc b.startAtUtc

instance : IsTotal Meeting startLE := ⟨fun a b => Int.le_total a.startAtUtc b.startAtUtc⟩

instance : IsTrans Meeting startLE := ⟨fun _ _ _ h h' => Int.le_trans h h'⟩

/-- `Database.list_user_meetings` (lines 83-92): meetings joined with the
user's registrations of status `confirmed` (only), ordered by start ascending.
The function takes no time bound — the source has no `from instant` filter. -/
def list_user_meetings (db : DB) (userId : Nat) : List Meeting :=
  List.insertionSort startLE
    ((db.registrations.filter
        (fun r => decide (r.userId = userId ∧ r.status = RegStatus.confirmed))).filterMap
      (fun r => get_meeting db r.meetingId))

/-- An APScheduler job handle: stable string id and fire instant. -/
structure Job where
  id : String
  runAt : Int
deriving DecidableEq, Repr

/-- `scheduler.add_job(..., id=..., replace_existing=True)`: inserts the job,
replacing any existing job with the same id. -/
def add_job (jobs : List Job) (j : Job) : List Job :=
  j :: jobs.filter (fun x => decide (¬ x.id = j.id))

/-- The stable job id `f"meeting_{meeting.id}_reminder_{days_before}"`. -/
def reminder_job_id (meetingId : Nat) (daysBefore : Nat) : String :=
  "meeting_" ++ toString meetingId ++ "_reminder_" ++ toString daysBefore

/-- `BotScheduler.schedule_meeting_reminders` (`bot/scheduler.py` lines 42-56):
for each offset in (3, 1) days, compute `run_at = start - offset` and submit
the job iff `run_at > now`; otherwise silently skip. -/
def schedule_meeting_reminders (jobs : List Job) (m : Meeting) (now : Int) :
    List Job :=
  ([3, 1] : List Nat).foldl
    (fun js daysBefore =>
      let runAt : Int := m.startAtUtc - Int.ofNat daysBefore * 86400
      if now < runAt then add_job js ⟨reminder_job_id m.id daysBefore, runAt⟩ else js)
    jobs

/-- Job-table lookup by id (the scheduler keys jobs by their string id). -/
def find_job (jobs : List Job) (i : String) : Option Int :=
  (jobs.find? (fun j => decide (j.id = i))).map (fun j => j.runAt)

/-- The database states reachable through the public operations.  Meeting
creation goes through the conversation handler, which rejects a capacity
below 1 (`_create_meeting_max_members` in `bot/handlers.py`), so the create
step carries `1 ≤ maxParticipants`.  A call that raises (`Except.error`) is
rolled back and produces no new state. -/
inductive Reachable : DB → Prop where
  | empty : Reachable emptyDB
  | create (db : DB) (hostId : Nat) (topic description : String) (startAtUtc : Int)
      (maxParticipants : Nat) (location : Option String) :
      Reachable db → 1 ≤ maxParticipants →
      Reachable (create_meeting db hostId topic description startAtUtc
                  maxParticipants location).1
  | reg (db : DB) (meetingId userId : Nat) (db' : DB) (ok : Bool) (msg : String) :
      Reachable db → register db meetingId userId = Except.ok (db', ok, msg) →
      Reachable db'
  | unreg (db : DB) (meetingId userId : Nat) (db' : DB) (ok : Bool) (msg : String) :
      Reachable db → unregister db meetingId userId = Except.ok (db', ok, msg) →
      Reachable db'

/-- Concrete run: a meeting of capacity 1 created by user 1. -/
def exMeeting : Meeting := ⟨0, "Coffee", "Meet", 0, 1, none, 1, none⟩

/-- The state after `create_meeting emptyDB 1 "Coffee" "Meet" 0 1 none`. -/
def exDb1 : DB := ⟨[exMeeting], [⟨0, 0, 1, RegStatus.confirmed, false⟩], 1, 1⟩

/-- The state after user 2 registers once on the (full) meeting: waitlisted. -/
def exDb2 : DB :=
  ⟨[exMeeting],
   [⟨0, 0, 1, RegStatus.confirmed, false⟩, ⟨1, 0, 2, RegStatus.waitlisted, false⟩], 1, 2⟩

/-- The state after user 2 registers a second time: a second live
(waitlisted) row for the same pair. -/
def exDb3 : DB :=
  ⟨[exMeeting],
   [⟨0, 0, 1, RegStatus.confirmed, false⟩, ⟨1, 0, 2, RegStatus.waitlisted, false⟩,
    ⟨2, 0, 2, RegStatus.waitlisted, false⟩], 1, 3⟩

example : (create_meeting emptyDB 1 "Coffee" "Meet" 0 1 none).1 = exDb1 := by decide

example : register exDb1 0 2 =
    Except.ok (exDb2, true, "Meeting is full. You are added to the waitlist.") := rfl

example : register exDb2 0 2 =
    Except.ok (exDb3, true, "Meeting is full. You are added to the waitlist.") := rfl

example : unregister exDb3 0 2 =
    Except.error "Multiple rows were found when exactly one or none was required" := rfl

/-- If the selector reports no row, the selected list is empty. -/
theorem scalar_ok_none {α : Type} {l : List α}
    (h : scalar_one_or_none l = Except.ok none) : l = [] := by
  cases l with
  | nil => rfl
  | cons a t =>
    cases t with
    | nil => simp [scalar_one_or_none] at h
    | cons b t' => simp [scalar_one_or_none] at h

/-- If the selector reports a row, it is the single element of the list. -/
theorem scalar_ok_some {α : Type} {l : List α} {a : α}
    (h : scalar_one_or_none l = Except.ok (some a)) : l = [a] := by
  cases l with
  | nil => simp [scalar_one_or_none] at h
  | cons b t =>
    cases t with
    | nil => simp [scalar_one_or_none] at h; rw [h]
    | cons c t' => simp [scalar_one_or_none] at h

/-- On two or more rows the selector raises. -/
theorem scalar_two {α : Type} {l : List α} (h : 2 ≤ l.length) :
    scalar_one_or_none l =
      Except.error "Multiple rows were found when exactly one or none was required" := by
  cases l with
  | nil => simp at h
  | cons a t =>
    cases t with
    | nil => simp at h
    | cons b t' => rfl

/-- Appending one row changes a filtered count by 0 or 1 depending on the
predicate at that row. -/
theorem length_filter_append_one {α : Type} (l : List α) (p : α → Bool) (a : α) :
    ((l ++ [a]).filter p).length =
      (l.filter p).length + (if p a then 1 else 0) := by
  rw [List.filter_append]
  cases hp : p a <;> simp [List.filter_cons, hp]

/-- Cancelling one row never increases a count of rows whose predicate
rejects canceled rows. -/
theorem length_filter_cancelById_le (regs : List Registration) (rid : Nat)
    (p : Registration → Bool)
    (hp : ∀ r : Registration, p { r with status := RegStatus.canceled } = false) :
    ((cancelById regs rid).filter p).length ≤ (regs.filter p).length := by
  induction regs with
  | nil => simp [cancelById]
  | cons r t ih =>
    have hstep : cancelById (r :: t) rid =
        (if r.id = rid then { r with status := RegStatus.canceled } else r) ::
          cancelById t rid := by
      simp [cancelById]
    rw [hstep, List.filter_cons, List.filter_cons]
    by_cases hid : r.id = rid
    · rw [if_pos hid, hp r]
      cases hpr : p r <;> simp <;> omega
    · rw [if_neg hid]
      cases hpr : p r <;> simp [hpr] <;> omega

/-- Every row of `cancelById regs rid` comes from a row of `regs`, either
unchanged or with its status flipped to canceled. -/
theorem mem_cancelById {regs : List Registration} {rid : Nat} {x : Registration}
    (hx : x ∈ cancelById regs rid) :
    ∃ r ∈ regs, x = r ∨ x = { r with status := RegStatus.canceled } := by
  rcases List.mem_map.mp hx with ⟨r, hr, hxr⟩
  refine ⟨r, hr, ?_⟩
  by_cases hid : r.id = rid
  · right; rw [← hxr]; simp [hid]
  · left; rw [← hxr]; simp [hid]

/-- The state invariant maintained by the public operations:
fresh meeting ids, unique meeting ids, registrations point below the meeting
counter, confirmed occupancy bounded by capacity, and at most one confirmed
registration per (meeting, user) pair. -/
def Inv (db : DB) : Prop :=
  (∀ m ∈ db.meetings, m.id < db.nextMeetingId) ∧
  (db.meetings.map (fun m => m.id)).Nodup ∧
  (∀ r ∈ db.registrations, r.meetingId < db.nextMeetingId) ∧
  (∀ m ∈ db.meetings, count_confirmed db m.id ≤ m.maxParticipants) ∧
  (∀ meetingId userId : Nat, (confirmedPair db meetingId userId).length ≤ 1)

/-- Inversion of a committed `register` call: either nothing was written, or
the meeting is active, the duplicate check found no confirmed row, and
exactly one new registration was appended, confirmed iff there was room. -/
theorem register_ok_inversion {db db' : DB} {mid uid : Nat} {ok : Bool} {msg : String}
    (h : register db mid uid = Except.ok (db', ok, msg)) :
    db' = db ∨
    ∃ m, get_meeting db mid = some m ∧ m.canceledAt = none ∧
      confirmedPair db mid uid = [] ∧
      db' = { db with
        registrations := db.registrations ++
          [⟨db.nextRegId, mid, uid,
            if count_confirmed db mid < m.maxParticipants then RegStatus.confirmed
            else RegStatus.waitlisted, false⟩],
        nextRegId := db.nextRegId + 1 } := by
  unfold register at h
  cases hg : get_meeting db mid with
  | none =>
    rw [hg] at h
    simp at h
    left; exact h.1.symm
  | some m =>
    rw [hg] at h
    dsimp only at h
    by_cases hc : m.canceledAt.isSome
    · rw [if_pos hc] at h
      simp at h
      left; exact h.1.symm
    · rw [if_neg hc] at h
      cases hs : scalar_one_or_none (confirmedPair db mid uid) with
      | error e => rw [hs] at h; simp at h
      | ok o =>
        cases o with
        | some r =>
          rw [hs] at h
          simp at h
          left; exact h.1.symm
        | none =>
          rw [hs] at h
          refine Or.inr ⟨m, rfl, Option.not_isSome_iff_eq_none.mp hc, scalar_ok_none hs, ?_⟩
          dsimp only at h
          split at h
          · rename_i hcap
            rw [if_pos hcap]
            simp at h
            exact h.1.symm
          · rename_i hcap
            rw [if_neg hcap]
            simp at h
            exact h.1.symm

/-- Inversion of a committed `unregister` call: either nothing was written or
one row's status was flipped to canceled. -/
theorem unregister_ok_inversion {db db' : DB} {mid uid : Nat} {ok : Bool} {msg : String}
    (h : unregister db mid uid = Except.ok (db', ok, msg)) :
    db' = db ∨
    ∃ rid, db' = { db with registrations := cancelById db.registrations rid } := by
  unfold unregister at h
  cases hs : scalar_one_or_none (livePair db mid uid) with
  | error e => rw [hs] at h; simp at h
  | ok o =>
    cases o with
    | none =>
      rw [hs] at h; simp at h
      left; exact h.1.symm
    | some r =>
      rw [hs] at h; simp at h
      right; exact ⟨r.id, h.1.symm⟩

/-- The empty database satisfies the invariant. -/
theorem inv_empty : Inv emptyDB := by
  refine ⟨?_, ?_, ?_, ?_, ?_⟩ <;>
    simp [emptyDB, count_confirmed, confirmedRegsFor, confirmedPair]

/-- A meeting id not yet allocated has no confirmed registrations. -/
theorem count_confirmed_fresh (db : DB)
    (h3 : ∀ r ∈ db.registrations, r.meetingId < db.nextMeetingId) :
    count_confirmed db db.nextMeetingId = 0 := by
  simp only [count_confirmed, confirmedRegsFor, List.length_eq_zero,
    List.filter_eq_nil_iff, decide_eq_true_eq]
  rintro r hr ⟨he, -⟩
  exact absurd he (Nat.ne_of_lt (h3 r hr))

/-- A meeting id not yet allocated has no confirmed pair rows either. -/
theorem confirmedPair_fresh (db : DB) (q : Nat)
    (h3 : ∀ r ∈ db.registrations, r.meetingId < db.nextMeetingId) :
    confirmedPair db db.nextMeetingId q = [] := by
  simp only [confirmedPair, List.filter_eq_nil_iff, decide_eq_true_eq]
  rintro r hr ⟨he, -⟩
  exact absurd he (Nat.ne_of_lt (h3 r hr))

/-- `create_meeting` preserves the invariant when the capacity is at least 1
(which the conversation handler guarantees). -/
theorem inv_create (db : DB) (hostId : Nat) (topic description : String)
    (startAtUtc : Int) (cap : Nat) (loc : Option String)
    (hInv : Inv db) (hcap : 1 ≤ cap) :
    Inv (create_meeting db hostId topic description startAtUtc cap loc).1 := by
  obtain ⟨h1, h2, h3, h4, h5⟩ := hInv
  have hms : (create_meeting db hostId topic description startAtUtc cap loc).1.meetings
      = db.meetings ++
        [⟨db.nextMeetingId, topic, description, startAtUtc, cap, loc, hostId, none⟩] := rfl
  have hregs : (create_meeting db hostId topic description startAtUtc cap loc).1.registrations
      = db.registrations ++
        [⟨db.nextRegId, db.nextMeetingId, hostId, RegStatus.confirmed, false⟩] := rfl
  have hnext : (create_meeting db hostId topic description startAtUtc cap loc).1.nextMeetingId
      = db.nextMeetingId + 1 := rfl
  have hcount : ∀ x : Nat,
      count_confirmed (create_meeting db hostId topic description startAtUtc cap loc).1 x
        = count_confirmed db x + (if db.nextMeetingId = x then 1 else 0) := by
    intro x
    simp only [count_confirmed, confirmedRegsFor, hregs, List.filter_append,
      List.length_append]
    by_cases hx : db.nextMeetingId = x <;> simp [hx]
  have hpairlen : ∀ p q : Nat,
      (confirmedPair (create_meeting db hostId topic description startAtUtc cap loc).1 p q).length
        = (confirmedPair db p q).length +
          (if db.nextMeetingId = p ∧ hostId = q then 1 else 0) := by
    intro p q
    simp only [confirmedPair, hregs, List.filter_append, List.length_append]
    by_cases hp : db.nextMeetingId = p <;> by_cases hq : hostId = q <;>
      simp [hp, hq]
  refine ⟨?_, ?_, ?_, ?_, ?_⟩
  · intro m hm
    rw [hms] at hm
    rw [hnext]
    rcases List.mem_append.mp hm with hm | hm
    · exact Nat.lt_succ_of_lt (h1 m hm)
    · simp at hm; subst hm; exact Nat.lt_succ_self _
  · rw [hms, List.map_append]
    refine List.Nodup.append h2 (by simp) ?_
    intro a ha hb
    simp at hb
    rcases List.mem_map.mp ha with ⟨m, hm, hma⟩
    rw [← hma] at hb
    exact absurd hb (Nat.ne_of_lt (h1 m hm))
  · intro r hr
    rw [hregs] at hr
    rw [hnext]
    rcases List.mem_append.mp hr with hr | hr
    · exact Nat.lt_succ_of_lt (h3 r hr)
    · simp at hr; subst hr; exact Nat.lt_succ_self _
  · intro m' hm'
    rw [hms] at hm'
    rw [hcount m'.id]
    rcases List.mem_append.mp hm' with hm' | hm'
    · rw [if_neg (fun he => absurd he.symm (Nat.ne_of_lt (h1 m' hm')))]
      simpa using h4 m' hm'
    · simp at hm'; subst hm'
      simp only [if_pos rfl]
      rw [count_confirmed_fresh db h3]
      simpa using hcap
  · intro p q
    rw [hpairlen p q]
    by_cases hmatch : db.nextMeetingId = p ∧ hostId = q
    · rw [if_pos hmatch]
      obtain ⟨hp, -⟩ := hmatch
      subst hp
      have := confirmedPair_fresh db q h3
      rw [this]
      simp
    · rw [if_neg hmatch]
      simpa using h5 p q

/-- A committed `register` call preserves the invariant. -/
theorem inv_register (db db' : DB) (mid uid : Nat) (ok : Bool) (msg : String)
    (hInv : Inv db) (h : register db mid uid = Except.ok (db', ok, msg)) :
    Inv db' := by
  rcases register_ok_inversion h with rfl | ⟨m, hg, hcnone, hpair, rfl⟩
  · exact hInv
  · obtain ⟨h1, h2, h3, h4, h5⟩ := hInv
    have hmmem : m ∈ db.meetings := List.mem_of_find?_eq_some hg
    have hmid : m.id = mid := by
      have := List.find?_some hg
      simpa using this
    set st := (if count_confirmed db mid < m.maxParticipants then RegStatus.confirmed
      else RegStatus.waitlisted) with hst
    have hregs : ({ db with
        registrations := db.registrations ++ [⟨db.nextRegId, mid, uid, st, false⟩],
        nextRegId := db.nextRegId + 1 } : DB).registrations
      = db.registrations ++ [⟨db.nextRegId, mid, uid, st, false⟩] := rfl
    have hcount : ∀ x : Nat,
        count_confirmed ({ db with
          registrations := db.registrations ++ [⟨db.nextRegId, mid, uid, st, false⟩],
          nextRegId := db.nextRegId + 1 } : DB) x
        = count_confirmed db x +
          (if mid = x ∧ st = RegStatus.confirmed then 1 else 0) := by
      intro x
      simp only [count_confirmed, confirmedRegsFor, hregs, List.filter_append,
        List.length_append]
      by_cases hx : mid = x ∧ st = RegStatus.confirmed
      · obtain ⟨hx1, hx2⟩ := hx
        simp [hx1, hx2]
      · rw [if_neg hx]
        rcases not_and_or.mp hx with hx1 | hx2
        · simp [hx1]
        · simp [hx2]
    have hpairlen : ∀ p q : Nat,
        (confirmedPair ({ db with
          registrations := db.registrations ++ [⟨db.nextRegId, mid, uid, st, false⟩],
          nextRegId := db.nextRegId + 1 } : DB) p q).length
        = (confirmedPair db p q).length +
          (if mid = p ∧ uid = q ∧ st = RegStatus.confirmed then 1 else 0) := by
      intro p q
      simp only [confirmedPair, hregs, List.filter_append, List.length_append]
      by_cases hx : mid = p ∧ uid = q ∧ st = RegStatus.confirmed
      · obtain ⟨hx1, hx2, hx3⟩ := hx
        simp [hx1, hx2, hx3]
      · rw [if_neg hx]
        rcases not_and_or.mp hx with hx1 | hx'
        · simp [hx1]
        · rcases not_and_or.mp hx' with hx2 | hx3
          · simp [hx2]
          · simp [hx3]
    refine ⟨h1, h2, ?_, ?_, ?_⟩
    · intro r hr
      rw [hregs] at hr
      rcases List.mem_append.mp hr with hr | hr
      · exact h3 r hr
      · simp at hr; subst hr
        show mid < db.nextMeetingId
        rw [← hmid]
        exact h1 m hmmem
    · intro m' hm'
      rw [hcount m'.id]
      by_cases hb : mid = m'.id ∧ st = RegStatus.confirmed
      · rw [if_pos hb]
        obtain ⟨hb1, hb2⟩ := hb
        have hm'm : m' = m := by
          refine List.inj_on_of_nodup_map h2 hm' hmmem ?_
          simp [hmid, ← hb1]
        subst hm'm
        have hlt : count_confirmed db mid < m'.maxParticipants := by
          by_contra hge
          rw [hst] at hb2
          rw [if_neg hge] at hb2
          exact RegStatus.noConfusion hb2
        rw [← hb1]
        omega
      · rw [if_neg hb]
        simpa using h4 m' hm'
    · intro p q
      rw [hpairlen p q]
      by_cases hb : mid = p ∧ uid = q ∧ st = RegStatus.confirmed
      · rw [if_pos hb]
        obtain ⟨hb1, hb2, -⟩ := hb
        subst hb1; subst hb2
        rw [hpair]
        simp
      · rw [if_neg hb]
        simpa using h5 p q

/-- A committed `unregister` call preserves the invariant. -/
theorem inv_unregister (db db' : DB) (mid uid : Nat) (ok : Bool) (msg : String)
    (hInv : Inv db) (h : unregister db mid uid = Except.ok (db', ok, msg)) :
    Inv db' := by
  rcases unregister_ok_inversion h with rfl | ⟨rid, rfl⟩
  · exact hInv
  · obtain ⟨h1, h2, h3, h4, h5⟩ := hInv
    have hregs : ({ db with registrations := cancelById db.registrations rid } : DB).registrations
        = cancelById db.registrations rid := rfl
    refine ⟨h1, h2, ?_, ?_, ?_⟩
    · intro r hr
      rw [hregs] at hr
      rcases mem_cancelById hr with ⟨r0, hr0, hcases⟩
      rcases hcases with h' | h'
      · rw [h']; exact h3 r0 hr0
      · rw [h']; exact h3 r0 hr0
    · intro m' hm'
      refine le_trans ?_ (h4 m' hm')
      simp only [count_confirmed, confirmedRegsFor, hregs]
      exact length_filter_cancelById_le db.registrations rid _ (fun r => by simp)
    · intro p q
      refine le_trans ?_ (h5 p q)
      simp only [confirmedPair, hregs]
      exact length_filter_cancelById_le db.registrations rid _ (fun r => by simp)

/-- Every state reachable through the public operations satisfies the
invariant. -/
theorem inv_reachable (db : DB) (h : Reachable db) : Inv db := by
  induction h with
  | empty => exact inv_empty
  | create db hostId topic description startAtUtc cap loc hr hcap ih =>
    exact inv_create db hostId topic description startAtUtc cap loc ih hcap
  | reg db mid uid db' ok msg hr hok ih =>
    exact inv_register db db' mid uid ok msg ih hok
  | unreg db mid uid db' ok msg hr hok ih =>
    exact inv_unregister db db' mid uid ok msg ih hok

/-- Claim C1: in every database state reachable through the public operations
each meeting has at most `capacity` confirmed registrations, and a `register`
call by a further distinct user made when `capacity` registrations are already
confirmed commits a waitlisted registration and reports the waitlist message —
never a confirmation. -/
theorem c1_capacity_invariant_and_waitlist (db : DB) (hreach : Reachable db) :
    (∀ m ∈ db.meetings, count_confirmed db m.id ≤ m.maxParticipants) ∧
    (∀ mid uid : Nat, ∀ m : Meeting,
      get_meeting db mid = some m → m.canceledAt = none →
      count_confirmed db mid = m.maxParticipants →
      confirmedPair db mid uid = [] →
      register db mid uid =
        Except.ok ({ db with
            registrations := db.registrations ++
              [⟨db.nextRegId, mid, uid, RegStatus.waitlisted, false⟩],
            nextRegId := db.nextRegId + 1 },
          true, "Meeting is full. You are added to the waitlist.")) := by
  constructor
  · exact (inv_reachable db hreach).2.2.2.1
  · intro mid uid m hg hcn hcount hpair
    unfold register
    rw [hg]
    dsimp only
    rw [if_neg (by simp [hcn])]
    rw [hpair]
    dsimp only [scalar_one_or_none]
    rw [hcount]
    rw [if_neg (Nat.lt_irrefl m.maxParticipants)]
    rfl

/-- Witness for C1 at a concrete reachable state: a meeting of capacity 1,
already full with its host, waitlists user 2. -/
theorem c1_witness :
    count_confirmed exDb1 0 ≤ 1 ∧
    register exDb1 0 2 =
      Except.ok (exDb2, true, "Meeting is full. You are added to the waitlist.") := by
  have hreach : Reachable exDb1 :=
    Reachable.create emptyDB 1 "Coffee" "Meet" 0 1 none Reachable.empty (by decide)
  have hmain := c1_capacity_invariant_and_waitlist exDb1 hreach
  constructor
  · exact hmain.1 exMeeting (by decide)
  · exact hmain.2 0 2 exMeeting rfl rfl (by decide) rfl

/-- Counterexample to claim C2: the state `exDb3` is reachable (create a
capacity-1 meeting, then let user 2 register twice: the duplicate check only
matches confirmed rows, and user 2 is merely waitlisted), yet the pair
(meeting 0, user 2) holds two simultaneously live registrations. -/
theorem c2_counterexample :
    Reachable exDb3 ∧ 2 ≤ (livePair exDb3 0 2).length := by
  constructor
  · have h1 : Reachable exDb1 :=
      Reachable.create emptyDB 1 "Coffee" "Meet" 0 1 none Reachable.empty (by decide)
    have h2 : Reachable exDb2 :=
      Reachable.reg exDb1 0 2 exDb2 true
        "Meeting is full. You are added to the waitlist." h1 rfl
    exact Reachable.reg exDb2 0 2 exDb3 true
      "Meeting is full. You are added to the waitlist." h2 rfl
  · decide

/-- Amended C2: in every reachable state each (meeting, user) pair has at most
one *confirmed* registration; several simultaneously live rows are possible
when they are waitlisted, because the duplicate check matches only confirmed
rows. -/
theorem c2_confirmed_unique (db : DB) (hreach : Reachable db) (mid uid : Nat) :
    (confirmedPair db mid uid).length ≤ 1 :=
  (inv_reachable db hreach).2.2.2.2 mid uid

/-- Witness for the amended C2 at a concrete reachable state. -/
theorem c2_witness : (confirmedPair exDb1 0 1).length ≤ 1 :=
  c2_confirmed_unique exDb1
    (Reachable.create emptyDB 1 "Coffee" "Meet" 0 1 none Reachable.empty (by decide))
    0 1

/-- Counterexample to claim C3: in `exDb2` user 2 holds a live (waitlisted)
registration for the active meeting 0, yet `register` does not reject with
`already_registered`: it inserts a second registration and mutates the state. -/
theorem c3_counterexample :
    (livePair exDb2 0 2).length = 1 ∧
    register exDb2 0 2 =
      Except.ok (exDb3, true, "Meeting is full. You are added to the waitlist.") ∧
    exDb3 ≠ exDb2 := by
  refine ⟨by decide, rfl, by decide⟩

/-- Amended C3: the `already_registered` rejection (with no mutation: the
returned state is the input state) happens exactly when the pair already has a
*confirmed* registration; a waitlisted live registration does not trigger it. -/
theorem c3_already_registered_on_confirmed (db : DB) (mid uid : Nat)
    (m : Meeting) (r : Registration)
    (hg : get_meeting db mid = some m) (hcn : m.canceledAt = none)
    (hpair : confirmedPair db mid uid = [r]) :
    register db mid uid = Except.ok (db, false, "You are already registered.") := by
  unfold register
  rw [hg]
  dsimp only
  rw [if_neg (by simp [hcn])]
  rw [hpair]
  rfl

/-- Witness for the amended C3: the host of `exDb1` is confirmed, so
re-registering is rejected without mutation. -/
theorem c3_witness :
    register exDb1 0 1 = Except.ok (exDb1, false, "You are already registered.") :=
  c3_already_registered_on_confirmed exDb1 0 1 exMeeting
    ⟨0, 0, 1, RegStatus.confirmed, false⟩ rfl rfl rfl

/-- Counterexample to claim C4: creating a meeting yields exactly one
registration for it — confirmed, for the host — but its host flag is `false`:
`create_meeting` never sets `is_host`. -/
theorem c4_counterexample :
    (create_meeting emptyDB 1 "Coffee" "Meet" 0 5 none).1.registrations =
      [⟨0, 0, 1, RegStatus.confirmed, false⟩] ∧
    ¬ (∃ r ∈ (create_meeting emptyDB 1 "Coffee" "Meet" 0 5 none).1.registrations,
        r.isHost = true) := by
  refine ⟨rfl, by decide⟩

/-- Amended C4: creating a meeting with host H and capacity C ≥ 1 and fetching
it yields the meeting, exactly one registration for it — confirmed, for H,
created in the same atomic step, with the `is_host` flag left at its default
`false` — and a confirmed count of 1. -/
theorem c4_create_roundtrip (db : DB) (hostId : Nat) (topic description : String)
    (startAtUtc : Int) (cap : Nat) (loc : Option String)
    (hcap : 1 ≤ cap)
    (h1 : ∀ m ∈ db.meetings, m.id < db.nextMeetingId)
    (h3 : ∀ r ∈ db.registrations, r.meetingId < db.nextMeetingId) :
    get_meeting (create_meeting db hostId topic description startAtUtc cap loc).1
        (create_meeting db hostId topic description startAtUtc cap loc).2.id =
      some (create_meeting db hostId topic description startAtUtc cap loc).2 ∧
    (create_meeting db hostId topic description startAtUtc cap loc).1.registrations.filter
        (fun r => decide (r.meetingId =
          (create_meeting db hostId topic description startAtUtc cap loc).2.id)) =
      [⟨db.nextRegId, db.nextMeetingId, hostId, RegStatus.confirmed, false⟩] ∧
    count_confirmed (create_meeting db hostId topic description startAtUtc cap loc).1
        (create_meeting db hostId topic description startAtUtc cap loc).2.id = 1 := by
  have hregs : (create_meeting db hostId topic description startAtUtc cap loc).1.registrations
      = db.registrations ++
        [⟨db.nextRegId, db.nextMeetingId, hostId, RegStatus.confirmed, false⟩] := rfl
  have hms : (create_meeting db hostId topic description startAtUtc cap loc).1.meetings
      = db.meetings ++
        [⟨db.nextMeetingId, topic, description, startAtUtc, cap, loc, hostId, none⟩] := rfl
  have hid : (create_meeting db hostId topic description startAtUtc cap loc).2.id
      = db.nextMeetingId := rfl
  have hm2 : (create_meeting db hostId topic description startAtUtc cap loc).2
      = ⟨db.nextMeetingId, topic, description, startAtUtc, cap, loc, hostId, none⟩ := rfl
  refine ⟨?_, ?_, ?_⟩
  · unfold get_meeting
    rw [hms, hid, hm2, List.find?_append]
    have hnone : db.meetings.find?
        (fun m => decide (m.id = db.nextMeetingId)) = none := by
      rw [List.find?_eq_none]
      intro m hm
      simp only [decide_eq_true_eq]
      exact Nat.ne_of_lt (h1 m hm)
    rw [hnone]
    simp [List.find?]
  · rw [hregs, hid, List.filter_append]
    have hnil : db.registrations.filter
        (fun r => decide (r.meetingId = db.nextMeetingId)) = [] := by
      rw [List.filter_eq_nil_iff]
      intro r hr
      simp only [decide_eq_true_eq]
      exact Nat.ne_of_lt (h3 r hr)
    rw [hnil]
    simp [List.filter]
  · rw [hid]
    have hstep : ∀ x : Nat,
        count_confirmed (create_meeting db hostId topic description startAtUtc cap loc).1 x
          = count_confirmed db x + (if db.nextMeetingId = x then 1 else 0) := by
      intro x
      simp only [count_confirmed, confirmedRegsFor, hregs, List.filter_append,
        List.length_append]
      by_cases hx : db.nextMeetingId = x <;> simp [hx]
    rw [hstep, count_confirmed_fresh db h3, if_pos rfl]

/-- Witness for the amended C4 on the empty database. -/
theorem c4_witness :
    get_meeting (create_meeting emptyDB 1 "Coffee" "Meet" 0 5 none).1
        (create_meeting emptyDB 1 "Coffee" "Meet" 0 5 none).2.id =
      some (create_meeting emptyDB 1 "Coffee" "Meet" 0 5 none).2 ∧
    (create_meeting emptyDB 1 "Coffee" "Meet" 0 5 none).1.registrations.filter
        (fun r => decide (r.meetingId =
          (create_meeting emptyDB 1 "Coffee" "Meet" 0 5 none).2.id)) =
      [⟨0, 0, 1, RegStatus.confirmed, false⟩] ∧
    count_confirmed (create_meeting emptyDB 1 "Coffee" "Meet" 0 5 none).1
        (create_meeting emptyDB 1 "Coffee" "Meet" 0 5 none).2.id = 1 :=
  c4_create_roundtrip emptyDB 1 "Coffee" "Meet" 0 5 none (by decide)
    (by simp [emptyDB]) (by simp [emptyDB])

/-- Cancelling distributes over list append. -/
theorem cancelById_append (l1 l2 : List Registration) (rid : Nat) :
    cancelById (l1 ++ l2) rid = cancelById l1 rid ++ cancelById l2 rid :=
  List.map_append _ _ _

/-- Cancelling a key that no row carries leaves the rows unchanged. -/
theorem cancelById_untouched (l : List Registration) (rid : Nat)
    (h : ∀ x ∈ l, x.id ≠ rid) : cancelById l rid = l := by
  unfold cancelById
  have hcongr : ∀ x ∈ l,
      (if x.id = rid then { x with status := RegStatus.canceled } else x) = id x :=
    fun x hx => by simp [h x hx]
  rw [List.map_congr_left hcongr, List.map_id]

/-- Counterexample to claim C7: in the reachable state `exDb3` user 2 does
hold a live registration for meeting 0, yet `unregister` neither flips it nor
returns `unregistered` — it raises, because the pair holds two live rows. -/
theorem c7_counterexample :
    livePair exDb3 0 2 ≠ [] ∧
    unregister exDb3 0 2 =
      Except.error "Multiple rows were found when exactly one or none was required" :=
  ⟨by decide, rfl⟩

/-- Amended C7: when the pair holds exactly one live registration (primary
keys being unique), `unregister` flips exactly that row to canceled and leaves
every other row — including every waitlisted one — untouched; when the pair
holds no live registration, it reports `not_registered` and returns the state
unchanged.  (With several live rows it raises instead — see C10.) -/
theorem c7_unregister_exact (db : DB) (mid uid : Nat) :
    (∀ r : Registration, livePair db mid uid = [r] →
      (db.registrations.map (fun x => x.id)).Nodup →
      ∃ l1 l2, db.registrations = l1 ++ r :: l2 ∧
        unregister db mid uid =
          Except.ok ({ db with
              registrations := l1 ++ { r with status := RegStatus.canceled } :: l2 },
            true, "You have been unregistered.")) ∧
    (livePair db mid uid = [] →
      unregister db mid uid = Except.ok (db, false, "You are not registered.")) := by
  constructor
  · intro r hlive hnd
    have hrmem : r ∈ db.registrations := by
      have hmem : r ∈ livePair db mid uid := by
        rw [hlive]; exact List.mem_singleton.mpr rfl
      exact (List.mem_filter.mp hmem).1
    obtain ⟨l1, l2, hdecomp⟩ := List.append_of_mem hrmem
    refine ⟨l1, l2, hdecomp, ?_⟩
    have hids : r.id ∉ l1.map (fun x => x.id) ∧ r.id ∉ l2.map (fun x => x.id) := by
      rw [hdecomp, List.map_append, List.map_cons, List.nodup_append] at hnd
      obtain ⟨-, hnd2, hdisj⟩ := hnd
      exact ⟨fun hmem => hdisj hmem (List.mem_cons_self _ _),
             (List.nodup_cons.mp hnd2).1⟩
    have hcan : cancelById db.registrations r.id =
        l1 ++ { r with status := RegStatus.canceled } :: l2 := by
      rw [hdecomp, cancelById_append]
      rw [cancelById_untouched l1 r.id
        (fun x hx hx' => hids.1 (List.mem_map.mpr ⟨x, hx, hx'⟩))]
      have htail : cancelById (r :: l2) r.id =
          { r with status := RegStatus.canceled } :: l2 := by
        unfold cancelById
        rw [List.map_cons, if_pos rfl]
        have := cancelById_untouched l2 r.id
          (fun x hx hx' => hids.2 (List.mem_map.mpr ⟨x, hx, hx'⟩))
        unfold cancelById at this
        rw [this]
      rw [htail]
    unfold unregister
    rw [hlive]
    dsimp only [scalar_one_or_none]
    rw [hcan]
  · intro h
    unfold unregister
    rw [h]
    rfl

/-- Witness for C7: in `exDb2`, user 5 is not registered (no mutation), and
user 2's single waitlisted row is flipped with everything else untouched. -/
theorem c7_witness :
    unregister exDb2 0 5 = Except.ok (exDb2, false, "You are not registered.") ∧
    ∃ l1 l2,
      exDb2.registrations =
        l1 ++ (⟨1, 0, 2, RegStatus.waitlisted, false⟩ : Registration) :: l2 ∧
      unregister exDb2 0 2 =
        Except.ok ({ exDb2 with
            registrations := l1 ++
              ({ (⟨1, 0, 2, RegStatus.waitlisted, false⟩ : Registration) with
                  status := RegStatus.canceled } : Registration) :: l2 },
          true, "You have been unregistered.") :=
  ⟨(c7_unregister_exact exDb2 0 5).2 rfl,
   (c7_unregister_exact exDb2 0 2).1 ⟨1, 0, 2, RegStatus.waitlisted, false⟩ rfl
     (by decide)⟩

/-- Claim C10: whenever a pair holds two or more live registrations — as in the
reachable state `exDb3` — `unregister` raises (models SQLAlchemy's
`MultipleResultsFound` escaping `scalar_one_or_none`) instead of returning a
structured outcome, and no successor state is committed. -/
theorem c10_unregister_raises_on_duplicates (db : DB) (mid uid : Nat)
    (h : 2 ≤ (livePair db mid uid).length) :
    unregister db mid uid =
      Except.error "Multiple rows were found when exactly one or none was required" := by
  unfold unregister
  rw [scalar_two h]

/-- Witness for C10 at the reachable duplicate-live state `exDb3`. -/
theorem c10_witness :
    2 ≤ (livePair exDb3 0 2).length ∧
    unregister exDb3 0 2 =
      Except.error "Multiple rows were found when exactly one or none was required" :=
  ⟨by decide, c10_unregister_raises_on_duplicates exDb3 0 2 (by decide)⟩

/-- Counterexample to claim C8: user 2 holds a live (waitlisted) registration
in `exDb2`, but `list_user_meetings` returns nothing — it matches only
confirmed registrations and takes no `from instant` bound at all. -/
theorem c8_counterexample :
    (livePair exDb2 0 2).length = 1 ∧ list_user_meetings exDb2 2 = [] :=
  ⟨by decide, rfl⟩

/-- Amended C8: `list_user_meetings` returns exactly the meetings for which the
user holds a *confirmed* registration (waitlisted ones are excluded and there
is no time restriction), ordered by start instant ascending. -/
theorem c8_confirmed_only_sorted (db : DB) (uid : Nat) :
    (∀ m : Meeting, m ∈ list_user_meetings db uid ↔
      ∃ r, r ∈ db.registrations ∧ r.userId = uid ∧ r.status = RegStatus.confirmed ∧
        get_meeting db r.meetingId = some m) ∧
    List.Sorted startLE (list_user_meetings db uid) := by
  constructor
  · intro m
    unfold list_user_meetings
    rw [List.mem_insertionSort, List.mem_filterMap]
    constructor
    · rintro ⟨r, hr, hm⟩
      obtain ⟨hr1, hr2⟩ := List.mem_filter.mp hr
      have hr3 := of_decide_eq_true hr2
      exact ⟨r, hr1, hr3.1, hr3.2, hm⟩
    · rintro ⟨r, hr1, hu, hs, hm⟩
      exact ⟨r, List.mem_filter.mpr ⟨hr1, by simp [hu, hs]⟩, hm⟩
  · exact List.sorted_insertionSort startLE _

/-- Witness for the amended C8: the host's confirmed registration makes the
meeting appear in the listing. -/
theorem c8_witness : exMeeting ∈ list_user_meetings exDb1 1 :=
  ((c8_confirmed_only_sorted exDb1 1).1 exMeeting).mpr
    ⟨⟨0, 0, 1, RegStatus.confirmed, false⟩, by decide, rfl, rfl, rfl⟩

/-- The two reminder job ids of one meeting differ (the day suffix differs). -/
theorem reminder_job_id_ne (mid : Nat) :
    reminder_job_id mid 3 ≠ reminder_job_id mid 1 := by
  unfold reminder_job_id
  intro h
  have h' := congrArg String.data h
  simp only [String.data_append] at h'
  have h2 := List.append_cancel_left h'
  exact absurd h2 (by decide)

/-- Submitting over a single differently-keyed job keeps both. -/
theorem add_job_singleton_ne (j j' : Job) (h : j.id ≠ j'.id) :
    add_job [j] j' = [j', j] := by
  unfold add_job
  simp [List.filter, h]

/-- Lookup steps through the head of the job table. -/
theorem find_job_cons (jobs : List Job) (j : Job) (i : String) :
    find_job (j :: jobs) i = if j.id = i then some j.runAt else find_job jobs i := by
  by_cases h : j.id = i
  · rw [if_pos h]
    unfold find_job
    rw [List.find?_cons_of_pos _ (by simp [h])]
    rfl
  · rw [if_neg h]
    unfold find_job
    rw [List.find?_cons_of_neg _ (by simp [h])]

/-- Claim C5: starting from an empty job table, `schedule_meeting_reminders`
submits the job keyed `meeting_{id}_reminder_{d}` with fire instant
`start − d days` exactly when that instant is strictly in the future, silently
skips it otherwise, and submits nothing besides the two reminder keys. -/
theorem c5_reminder_submitted_iff_future (m : Meeting) (now : Int) (d : Nat)
    (hd : d = 3 ∨ d = 1) :
    find_job (schedule_meeting_reminders [] m now) (reminder_job_id m.id d) =
      (if now < m.startAtUtc - Int.ofNat d * 86400
       then some (m.startAtUtc - Int.ofNat d * 86400) else none) ∧
    ∀ j ∈ schedule_meeting_reminders [] m now,
      j.id = reminder_job_id m.id 3 ∨ j.id = reminder_job_id m.id 1 := by
  have hne := reminder_job_id_ne m.id
  unfold schedule_meeting_reminders
  dsimp only [List.foldl]
  by_cases h3 : now < m.startAtUtc - Int.ofNat 3 * 86400
  · by_cases h1 : now < m.startAtUtc - Int.ofNat 1 * 86400
    · rw [if_pos h3, if_pos h1]
      rw [show add_job []
          ⟨reminder_job_id m.id 3, m.startAtUtc - Int.ofNat 3 * 86400⟩ =
          [⟨reminder_job_id m.id 3, m.startAtUtc - Int.ofNat 3 * 86400⟩] from rfl]
      rw [add_job_singleton_ne _ _ hne]
      constructor
      · rcases hd with rfl | rfl
        · rw [find_job_cons, if_neg (Ne.symm hne), find_job_cons, if_pos rfl,
            if_pos h3]
        · rw [find_job_cons, if_pos rfl, if_pos h1]
      · intro j hj
        rcases List.mem_cons.mp hj with rfl | hj
        · exact Or.inr rfl
        · rw [List.mem_singleton.mp hj]
          exact Or.inl rfl
    · rw [if_pos h3, if_neg h1]
      rw [show add_job []
          ⟨reminder_job_id m.id 3, m.startAtUtc - Int.ofNat 3 * 86400⟩ =
          [⟨reminder_job_id m.id 3, m.startAtUtc - Int.ofNat 3 * 86400⟩] from rfl]
      constructor
      · rcases hd with rfl | rfl
        · rw [find_job_cons, if_pos rfl, if_pos h3]
        · rw [find_job_cons, if_neg hne]
          rw [if_neg h1]
          rfl
      · intro j hj
        rw [List.mem_singleton.mp hj]
        exact Or.inl rfl
  · by_cases h1 : now < m.startAtUtc - Int.ofNat 1 * 86400
    · rw [if_neg h3, if_pos h1]
      rw [show add_job []
          ⟨reminder_job_id m.id 1, m.startAtUtc - Int.ofNat 1 * 86400⟩ =
          [⟨reminder_job_id m.id 1, m.startAtUtc - Int.ofNat 1 * 86400⟩] from rfl]
      constructor
      · rcases hd with rfl | rfl
        · rw [find_job_cons, if_neg (Ne.symm hne)]
          rw [if_neg h3]
          rfl
        · rw [find_job_cons, if_pos rfl, if_pos h1]
      · intro j hj
        rw [List.mem_singleton.mp hj]
        exact Or.inr rfl
    · rw [if_neg h3, if_neg h1]
      constructor
      · rcases hd with rfl | rfl
        · rw [if_neg h3]
          rfl
        · rw [if_neg h1]
          rfl
      · intro j hj
        exact absurd hj (List.not_mem_nil j)

/-- A meeting starting in exactly 2 days (now = 0). -/
def exMeeting2 : Meeting := ⟨0, "Coffee", "Meet", 172800, 1, none, 1, none⟩

/-- Witness for C5: with the meeting 2 days ahead, only the 1-day reminder is
submitted; the 3-day offset is silently skipped. -/
theorem c5_witness :
    find_job (schedule_meeting_reminders [] exMeeting2 0) (reminder_job_id 0 1) =
      some 86400 ∧
    find_job (schedule_meeting_reminders [] exMeeting2 0) (reminder_job_id 0 3) =
      none := by
  have hA := (c5_reminder_submitted_iff_future exMeeting2 0 1 (Or.inr rfl)).1
  have hB := (c5_reminder_submitted_iff_future exMeeting2 0 3 (Or.inl rfl)).1
  rw [if_pos (by decide)] at hA
  rw [if_neg (by decide)] at hB
  exact ⟨hA, hB⟩

/-- Membership in the job-id multiset after a replace-by-id submit. -/
theorem mem_ids_add_job (jobs : List Job) (j : Job) (i : String) :
    (i ∈ (add_job jobs j).map (fun x => x.id)) ↔
      (i = j.id ∨ i ∈ jobs.map (fun x => x.id)) := by
  unfold add_job
  rw [List.map_cons, List.mem_cons]
  constructor
  · rintro (rfl | hmem)
    · exact Or.inl rfl
    · rcases List.mem_map.mp hmem with ⟨x, hx, hxi⟩
      exact Or.inr (List.mem_map.mpr ⟨x, (List.mem_filter.mp hx).1, hxi⟩)
  · rintro (rfl | hmem)
    · exact Or.inl rfl
    · rcases List.mem_map.mp hmem with ⟨x, hx, hxi⟩
      by_cases hxid : x.id = j.id
      · exact Or.inl (by rw [← hxi, hxid])
      · exact Or.inr (List.mem_map.mpr
          ⟨x, List.mem_filter.mpr ⟨hx, by simp [hxid]⟩, hxi⟩)

/-- Replace-by-id submits never create duplicate job ids. -/
theorem nodup_ids_add_job (jobs : List Job) (j : Job)
    (h : (jobs.map (fun x => x.id)).Nodup) :
    ((add_job jobs j).map (fun x => x.id)).Nodup := by
  unfold add_job
  rw [List.map_cons, List.nodup_cons]
  constructor
  · intro hmem
    rcases List.mem_map.mp hmem with ⟨x, hx, hxi⟩
    have hne := (List.mem_filter.mp hx).2
    simp at hne
    exact hne hxi
  · exact List.Nodup.sublist (List.Sublist.map _ (List.filter_sublist _)) h

/-- Claim C6: planning the reminders of a meeting twice (same start, same
planning time) leaves the same set of job ids as planning once, with no
duplicate job ids. -/
theorem c6_replan_idempotent (jobs : List Job) (m : Meeting) (now : Int)
    (hnd : (jobs.map (fun x => x.id)).Nodup) :
    (∀ i : String,
      i ∈ (schedule_meeting_reminders (schedule_meeting_reminders jobs m now) m now).map
            (fun x => x.id) ↔
      i ∈ (schedule_meeting_reminders jobs m now).map (fun x => x.id)) ∧
    ((schedule_meeting_reminders (schedule_meeting_reminders jobs m now) m now).map
        (fun x => x.id)).Nodup := by
  unfold schedule_meeting_reminders
  dsimp only [List.foldl]
  by_cases h3 : now < m.startAtUtc - Int.ofNat 3 * 86400 <;>
    by_cases h1 : now < m.startAtUtc - Int.ofNat 1 * 86400 <;>
    simp only [h3, h1, if_true, if_false] <;>
    refine ⟨fun i => ?_, ?_⟩ <;>
    first
      | (simp only [mem_ids_add_job]; tauto)
      | tauto
      | ((repeat apply nodup_ids_add_job); exact hnd)

/-- Witness for C6 starting from the empty job table. -/
theorem c6_witness :
    (∀ i : String,
      i ∈ (schedule_meeting_reminders (schedule_meeting_reminders [] exMeeting2 0)
            exMeeting2 0).map (fun x => x.id) ↔
      i ∈ (schedule_meeting_reminders [] exMeeting2 0).map (fun x => x.id)) ∧
    ((schedule_meeting_reminders (schedule_meeting_reminders [] exMeeting2 0)
        exMeeting2 0).map (fun x => x.id)).Nodup :=
  c6_replan_idempotent [] exMeeting2 0 (by simp)

/-- Counterexample to claim C9: two register calls for the same new
(meeting, user) pair, executed one after the other (each call's transaction
fully atomic), both succeed with a waitlist insert when the meeting is full —
leaving two live registrations and no `already_registered` rejection. -/
theorem c9_counterexample :
    register exDb1 0 2 =
      Except.ok (exDb2, true, "Meeting is full. You are added to the waitlist.") ∧
    register exDb2 0 2 =
      Except.ok (exDb3, true, "Meeting is full. You are added to the waitlist.") ∧
    (livePair exDb3 0 2).length = 2 :=
  ⟨rfl, rfl, by decide⟩

/-- Amended C9: when the two serialized calls start with free capacity, they
resolve to exactly one live (confirmed) registration plus one
`already_registered` rejection with no second mutation. -/
theorem c9_serialized_register_pair (db : DB) (mid uid : Nat) (m : Meeting)
    (hg : get_meeting db mid = some m) (hcn : m.canceledAt = none)
    (hnew : livePair db mid uid = [])
    (hroom : count_confirmed db mid < m.maxParticipants) :
    ∃ db', register db mid uid = Except.ok (db', true, "Registered successfully.") ∧
      register db' mid uid = Except.ok (db', false, "You are already registered.") ∧
      (livePair db' mid uid).length = 1 := by
  have hregsnil : ∀ r ∈ db.registrations,
      ¬ (r.meetingId = mid ∧ r.userId = uid ∧
        (r.status = RegStatus.confirmed ∨ r.status = RegStatus.waitlisted)) := by
    have hnew' := hnew
    unfold livePair at hnew'
    have hn := List.filter_eq_nil_iff.mp hnew'
    intro r hr
    have h' := hn r hr
    simp only [decide_eq_true_eq] at h'
    exact h'
  have hcp : confirmedPair db mid uid = [] := by
    rw [confirmedPair, List.filter_eq_nil_iff]
    intro r hr
    simp only [decide_eq_true_eq]
    rintro ⟨ha, hb, hc⟩
    exact hregsnil r hr ⟨ha, hb, Or.inl hc⟩
  refine ⟨{ db with
      registrations := db.registrations ++
        [⟨db.nextRegId, mid, uid, RegStatus.confirmed, false⟩],
      nextRegId := db.nextRegId + 1 }, ?_, ?_, ?_⟩
  · unfold register
    rw [hg]
    dsimp only
    rw [if_neg (by simp [hcn])]
    rw [hcp]
    dsimp only [scalar_one_or_none]
    rw [if_pos hroom]
    rfl
  · have hg' : get_meeting { db with
        registrations := db.registrations ++
          [⟨db.nextRegId, mid, uid, RegStatus.confirmed, false⟩],
        nextRegId := db.nextRegId + 1 } mid = some m := hg
    have hcp' : confirmedPair { db with
        registrations := db.registrations ++
          [⟨db.nextRegId, mid, uid, RegStatus.confirmed, false⟩],
        nextRegId := db.nextRegId + 1 } mid uid =
        [⟨db.nextRegId, mid, uid, RegStatus.confirmed, false⟩] := by
      have hsplit : confirmedPair { db with
          registrations := db.registrations ++
            [⟨db.nextRegId, mid, uid, RegStatus.confirmed, false⟩],
          nextRegId := db.nextRegId + 1 } mid uid =
          confirmedPair db mid uid ++
            ([⟨db.nextRegId, mid, uid, RegStatus.confirmed, false⟩] :
              List Registration).filter
              (fun r => decide (r.meetingId = mid ∧ r.userId = uid ∧
                r.status = RegStatus.confirmed)) := by
        simp only [confirmedPair, List.filter_append]
      rw [hsplit, hcp]
      simp [List.filter]
    unfold register
    rw [hg']
    dsimp only
    rw [if_neg (by simp [hcn])]
    rw [hcp']
    rfl
  · have hsplit : livePair { db with
        registrations := db.registrations ++
          [⟨db.nextRegId, mid, uid, RegStatus.confirmed, false⟩],
        nextRegId := db.nextRegId + 1 } mid uid =
        livePair db mid uid ++
          ([⟨db.nextRegId, mid, uid, RegStatus.confirmed, false⟩] :
            List Registration).filter
            (fun r => decide (r.meetingId = mid ∧ r.userId = uid ∧
              (r.status = RegStatus.confirmed ∨ r.status = RegStatus.waitlisted))) := by
      simp only [livePair, List.filter_append]
    rw [hsplit, hnew]
    simp [List.filter]

/-- A meeting of capacity 2 whose host fills one slot. -/
def exMeetingB : Meeting := ⟨0, "Coffee", "Meet", 0, 2, none, 1, none⟩

/-- The state after creating the capacity-2 meeting. -/
def exDbB1 : DB := ⟨[exMeetingB], [⟨0, 0, 1, RegStatus.confirmed, false⟩], 1, 1⟩

/-- Witness for the amended C9 with one free slot. -/
theorem c9_witness :
    ∃ db', register exDbB1 0 2 =
        Except.ok (db', true, "Registered successfully.") ∧
      register db' 0 2 = Except.ok (db', false, "You are already registered.") ∧
      (livePair db' 0 2).length = 1 :=
  c9_serialized_register_pair exDbB1 0 2 exMeetingB rfl rfl rfl (by decide)

end GtBot
